import Mathlib

/-!
# Verification of the AWS App Runner deployer and serving runtime

Shallow embedding of `src/zenml/integrations/aws/deployers/aws_deployer.py`
and `src/zenml/deployers/server/runtime.py`, together with proofs of the
specified properties.

Python dictionaries of configuration values are embedded as structures with
`Option` fields (a missing key is `none`; a `dict.get(k, {})` chain on an
absent intermediate dictionary yields `none` at the leaf).  Machine floats
appearing in the resource-tier table are embedded as rationals (every
constant in the table is exactly representable, and the comparisons and
affine score arithmetic performed on them are exact).  Fallible code
returns `Except`.  Remote AWS calls are embedded by passing their outcome
as an explicit argument and recording the writes the code issues in a
trace.

The file is organised as: all definitions first, then all theorems.
-/

namespace AwsDeployer

/-! ## Constants (aws_deployer.py lines 70-80) -/

def DEFAULT_CPU : String := "0.25 vCPU"

def DEFAULT_MEMORY : String := "0.5 GB"

def DEFAULT_MIN_SIZE : Nat := 1

def DEFAULT_MAX_SIZE : Nat := 25

def DEFAULT_MAX_CONCURRENCY : Nat := 100

def AWS_APP_RUNNER_MAX_SIZE : Nat := 1000

def AWS_APP_RUNNER_MAX_CONCURRENCY : Nat := 1000

/-! ## `_requires_service_replacement` (lines 1104-1146)

The existing App Runner service dictionary is flattened to the three leaf
values the function reads:
`NetworkConfiguration.IngressConfiguration.IsPubliclyAccessible`,
`NetworkConfiguration.EgressConfiguration.VpcConnectorArn` and
`EncryptionConfiguration.KmsKey`.  Each is `none` when the key (or any
enclosing dictionary) is missing. -/

structure AppRunnerService where
  isPubliclyAccessible : Option Bool
  vpcConnectorArn : Option String
  kmsKey : Option String
  deriving Repr, DecidableEq

/-- The fields of `AWSDeployerSettings` that `_requires_service_replacement`
reads.  The flavor class itself is not part of the analysed sources; the
field types follow the spec (network visibility flag, optional
private-network (VPC) attachment, optional encryption-key reference). -/
structure AWSDeployerSettings where
  is_publicly_accessible : Bool
  ingress_vpc_configuration : Option String
  encryption_kms_key : Option String
  deriving Repr, DecidableEq

/-- Python truthiness of an optional string (`bool(x)`): `None` and the
empty string are falsy. -/
def pyTruthy : Option String → Bool
  | none => false
  | some s => s ≠ ""

/-- `_requires_service_replacement(existing_service, settings)`
(lines 1104-1146).  `current_public_access != settings.is_publicly_accessible`
compares an optional value with a boolean, so a missing key counts as
different. -/
def requiresServiceReplacement (existing_service : AppRunnerService)
    (settings : AWSDeployerSettings) : Bool :=
  if existing_service.isPubliclyAccessible ≠ some settings.is_publicly_accessible then
    true
  else if pyTruthy existing_service.vpcConnectorArn ≠
      (settings.ingress_vpc_configuration.isSome) then
    true
  else if existing_service.kmsKey ≠ settings.encryption_kms_key then
    true
  else
    false

/-- The branch condition of `do_provision_pipeline_endpoint` (line 1350):
`if existing_service and self._requires_service_replacement(...)` — the
replacement path (deprovision then recreate) is taken exactly when an
existing service was found and the decision returns true; otherwise the
service is updated in place. -/
def provisionTakesReplacementPath (existing_service : Option AppRunnerService)
    (settings : AWSDeployerSettings) : Bool :=
  match existing_service with
  | none => false
  | some svc => requiresServiceReplacement svc settings

/-! ## `_convert_scaling_settings_to_aws_format` (lines 1253-1289)

`ResourceSettings` is not part of the analysed sources; its three scaling
fields are passed directly as optional naturals (`min_replicas`,
`max_replicas`, `max_concurrency` are non-negative integer settings). -/

/-- `_convert_scaling_settings_to_aws_format(resource_settings)` returning
`(min_size, max_size, max_concurrency)`. -/
def convertScalingSettingsToAwsFormat
    (min_replicas max_replicas max_concurrency : Option Nat) : Nat × Nat × Nat :=
  let min_size :=
    match min_replicas with
    | none => DEFAULT_MIN_SIZE
    | some m => max 1 m
  let max_size :=
    match max_replicas with
    | none => DEFAULT_MAX_SIZE
    | some m => if m = 0 then AWS_APP_RUNNER_MAX_SIZE else min m AWS_APP_RUNNER_MAX_SIZE
  let maxConc :=
    match max_concurrency with
    | none => DEFAULT_MAX_CONCURRENCY
    | some c => min c AWS_APP_RUNNER_MAX_CONCURRENCY
  (min_size, max_size, maxConc)

/-! ## `_select_aws_cpu_memory_combination` (lines 1176-1251) -/

/-- One row of the `valid_combinations` table:
`(cpu_value, cpu_string, memory_value, memory_string)`. -/
structure AwsTier where
  cpuVal : ℚ
  cpuStr : String
  memVal : ℚ
  memStr : String
  deriving Repr, DecidableEq

/-- The fixed table of valid AWS App Runner CPU/memory combinations
(lines 1198-1211). -/
def valid_combinations : List AwsTier :=
  [⟨1/4, "0.25 vCPU", 1/2, "0.5 GB"⟩,
   ⟨1/4, "0.25 vCPU", 1, "1 GB"⟩,
   ⟨1/2, "0.5 vCPU", 1, "1 GB"⟩,
   ⟨1, "1 vCPU", 2, "2 GB"⟩,
   ⟨1, "1 vCPU", 3, "3 GB"⟩,
   ⟨1, "1 vCPU", 4, "4 GB"⟩,
   ⟨2, "2 vCPU", 4, "4 GB"⟩,
   ⟨2, "2 vCPU", 6, "6 GB"⟩,
   ⟨4, "4 vCPU", 8, "8 GB"⟩,
   ⟨4, "4 vCPU", 10, "10 GB"⟩,
   ⟨4, "4 vCPU", 12, "12 GB"⟩]

/-- `cpu_ok and mem_ok` for one table row: a missing requirement is always
satisfied, otherwise the row value must be at least the requested value. -/
def tierOk (requested_cpu requested_memory_gb : Option ℚ) (t : AwsTier) : Bool :=
  (match requested_cpu with
   | none => true
   | some c => decide (c ≤ t.cpuVal)) &&
  (match requested_memory_gb with
   | none => true
   | some m => decide (m ≤ t.memVal))

/-- The over-provisioning score `cpu_waste * 10 + mem_waste` of one row
(a missing requirement contributes waste 0). -/
def tierScore (requested_cpu requested_memory_gb : Option ℚ) (t : AwsTier) : ℚ :=
  (match requested_cpu with
   | none => 0
   | some c => t.cpuVal - c) * 10 +
  (match requested_memory_gb with
   | none => 0
   | some m => t.memVal - m)

/-- One iteration of the selection loop (lines 1221-1244): the accumulator
is `none` while `best_combination is None` (`best_score` still infinite),
and `some (best_score, best_combination)` afterwards; a row replaces the
accumulator only when it satisfies the requirements and its score is
strictly smaller. -/
def selStep (requested_cpu requested_memory_gb : Option ℚ)
    (acc : Option (ℚ × String × String)) (t : AwsTier) :
    Option (ℚ × String × String) :=
  if tierOk requested_cpu requested_memory_gb t then
    match acc with
    | none => some (tierScore requested_cpu requested_memory_gb t, t.cpuStr, t.memStr)
    | some (bs, b) =>
      if tierScore requested_cpu requested_memory_gb t < bs then
        some (tierScore requested_cpu requested_memory_gb t, t.cpuStr, t.memStr)
      else
        some (bs, b)
  else
    acc

/-- `_select_aws_cpu_memory_combination(requested_cpu, requested_memory_gb)`
(lines 1176-1251). -/
def selectAwsCpuMemoryCombination (requested_cpu requested_memory_gb : Option ℚ) :
    String × String :=
  if requested_cpu = none ∧ requested_memory_gb = none then
    (DEFAULT_CPU, DEFAULT_MEMORY)
  else
    match valid_combinations.foldl (selStep requested_cpu requested_memory_gb) none with
    | none => ("4 vCPU", "12 GB")
    | some (_, c) => c

/-! ## `_get_service_operational_state` (lines 1047-1102) -/

inductive PipelineEndpointStatus
  | unknown | pending | running | error | absent
  deriving Repr, DecidableEq

/-- The two keys of the App Runner service dictionary that determine the
status and URL of the produced operational state. -/
structure ServiceStatusView where
  status : Option String
  serviceUrl : Option String
  deriving Repr, DecidableEq

/-- The status/url part of `PipelineEndpointOperationalState` (the metadata
blob is not needed by any claim). -/
structure OperationalState where
  status : PipelineEndpointStatus
  url : Option String
  deriving Repr, DecidableEq

/-- `str.upper()` restricted to what the embedding needs. -/
def pyUpper (s : String) : String :=
  (s.toList.map Char.toUpper).asString

/-- `s.startswith(pre)`. -/
def pyStartsWith (s pre : String) : Bool :=
  pre.toList.isPrefixOf s.toList

/-- Python truthiness of the `url` field: non-`None` and non-empty. -/
def urlNonempty : Option String → Bool
  | none => false
  | some s => s ≠ ""

/-- `_get_service_operational_state(service, ...)` (lines 1047-1102),
restricted to the status/url fields.  `service_status` is
`service.get("Status", "").upper()`; the URL is read and scheme-prefixed
only in the `RUNNING` branch (`if state.url and not
state.url.startswith("https://")`). -/
def getServiceOperationalState (service : ServiceStatusView) : OperationalState :=
  let service_status := pyUpper (service.status.getD "")
  if service_status = "CREATE_FAILED" ∨ service_status = "DELETE_FAILED" then
    ⟨.error, none⟩
  else if service_status = "OPERATION_IN_PROGRESS" then
    ⟨.pending, none⟩
  else if service_status = "RUNNING" then
    let url := service.serviceUrl
    let url :=
      match url with
      | none => none
      | some u =>
        if u ≠ "" ∧ ¬ pyStartsWith u "https://" then some ("https://" ++ u) else some u
    ⟨.running, url⟩
  else if service_status = "DELETED" then
    ⟨.absent, none⟩
  else if service_status = "PAUSED" then
    ⟨.pending, none⟩
  else
    ⟨.unknown, none⟩

/-! ## `do_deprovision_pipeline_endpoint` (lines 1798-1884)

The remote calls are embedded as explicit outcome arguments; the
auxiliary-resource deletions issued after polling are recorded in a trace.
`_poll_pipeline_endpoint` itself lives in the deployer base class, outside
the analysed sources; its outcome (the last observed operational state) is
passed as an argument. -/

inductive CleanupAction
  | deleteSecret
  | deleteAutoScalingConfig
  deriving Repr, DecidableEq

inductive DeployErr
  | endpointNotFound (msg : String)
  | deprovisionFailed (msg : String)
  | runtimeFailure (msg : String)
  | deployerFailure (msg : String)
  | logsNotFound (msg : String)
  | notImplemented (msg : String)
  deriving Repr, DecidableEq

/-- `do_deprovision_pipeline_endpoint(endpoint, timeout)` (lines 1798-1884).
`serviceExists` is whether `_get_app_runner_service` found the service,
`serviceArn` the recorded metadata ARN, `deleteOk` the outcome of the
`delete_service` call, and `polledState` the state observed when
`_poll_pipeline_endpoint` returned.  The result pairs the returned value
(`None` on full deletion) with the trace of auxiliary cleanup actions. -/
def doDeprovisionPipelineEndpoint (serviceExists : Bool) (serviceArn : Option String)
    (deleteOk : Bool) (polledState : OperationalState) :
    Except DeployErr (Option OperationalState × List CleanupAction) :=
  if ¬ serviceExists then
    .error (.endpointNotFound "App Runner service not found")
  else if serviceArn = none then
    .error (.runtimeFailure "Service ARN not found in endpoint metadata")
  else if ¬ deleteOk then
    .error (.deprovisionFailed "Failed to delete App Runner service")
  else if polledState.status ≠ .absent then
    .ok (some polledState, [])
  else
    .ok (none, [.deleteSecret, .deleteAutoScalingConfig])

/-! ## `_prepare_environment_variables` (lines 936-1016)

Python dictionaries of environment variables are embedded as association
lists where a later entry overrides an earlier one; `{**a, **b}` and
`a.update(b)` both become `a ++ b`. -/

/-- Dictionary lookup: the value of the last entry with the given key. -/
def dictGet (d : List (String × String)) (k : String) : Option String :=
  d.reverse.lookup k

/-- Result of `_prepare_environment_variables`, extended with the warning
flag and the old-secret deletions the code performs on the way. -/
structure PrepEnvResult where
  env_vars : List (String × String)
  secret_refs : List (String × String)
  active_secret_arn : Option String
  warned : Bool
  deleted_secrets : List String
  deriving Repr, DecidableEq

/-- `_prepare_environment_variables(endpoint, environment, secrets, settings)`
(lines 936-1016).  `settingsEnv` is `settings.environment_variables`,
`useSecretsManager` is `settings.use_secrets_manager`, `upsertResult` the
outcome of `_create_or_update_secret` (which raises on failure), and
`existingSecretArn` the outcome of `_get_secret_arn`.  The function is
total: a secret-storage failure is caught (`except Exception`), logged as a
warning and answered by falling back to plaintext environment variables. -/
def prepareEnvironmentVariables (settingsEnv environment secrets : List (String × String))
    (useSecretsManager : Bool) (upsertResult : Except String String)
    (existingSecretArn : Option String) : PrepEnvResult :=
  let env_vars := settingsEnv ++ environment
  if secrets = [] then
    ⟨env_vars, [], none, false, []⟩
  else if useSecretsManager then
    match upsertResult with
    | .ok arn =>
      let secret_refs := secrets.map fun kv => (kv.1, arn ++ ":" ++ kv.1 ++ "::")
      let deleted :=
        match existingSecretArn with
        | some e => if e ≠ arn then [e] else []
        | none => []
      ⟨env_vars, secret_refs, some arn, false, deleted⟩
    | .error _ =>
      let deleted :=
        match existingSecretArn with
        | some e => [e]
        | none => []
      ⟨env_vars ++ secrets, [], none, true, deleted⟩
  else
    ⟨env_vars ++ secrets, [], none, true, []⟩

/-! ## `_create_or_update_auto_scaling_config` (lines 792-883) -/

/-- The three size fields of a described auto-scaling configuration. -/
structure ScalingConfig where
  maxConcurrency : Nat
  maxSize : Nat
  minSize : Nat
  deriving Repr, DecidableEq

/-- Outcome of `describe_auto_scaling_configuration` on the recorded ARN:
success, an `InvalidRequestException` (stale/deleted ARN), or another
client error. -/
inductive DescribeScalingResult
  | found (cfg : ScalingConfig)
  | invalidRequest
  | otherError (msg : String)
  deriving Repr, DecidableEq

/-- Marker for a remote write issued by the function. -/
inductive RemoteWrite
  | createAutoScalingConfiguration
  deriving Repr, DecidableEq

/-- `_create_or_update_auto_scaling_config(config_name, min_size, max_size,
max_concurrency, endpoint)` (lines 792-883).  `existingArn` is the outcome
of `_get_auto_scaling_config_arn`, `describeResult` the outcome of the
describe call on that ARN, and `createResult` the outcome of
`create_auto_scaling_configuration` (the new ARN on success).  The result
pairs the returned ARN with the trace of remote writes. -/
def createOrUpdateAutoScalingConfig (existingArn : Option String)
    (describeResult : DescribeScalingResult) (createResult : Except String String)
    (min_size max_size max_concurrency : Nat) :
    Except DeployErr (String × List RemoteWrite) :=
  let createPath : Except DeployErr (String × List RemoteWrite) :=
    match createResult with
    | .ok newArn => .ok (newArn, [.createAutoScalingConfiguration])
    | .error e => .error (.deployerFailure e)
  match existingArn with
  | some arn =>
    match describeResult with
    | .found cfg =>
      if cfg.maxConcurrency = max_concurrency ∧ cfg.maxSize = max_size ∧
          cfg.minSize = min_size then
        .ok (arn, [])
      else
        createPath
    | .invalidRequest => createPath
    | .otherError e => .error (.deployerFailure e)
  | none => createPath

/-! ## `do_get_pipeline_endpoint_logs` (lines 1689-1796)

One log event is a `(timestamp, message)` pair; a stream is the event list
returned for it by `get_log_events`.  The `datetime.fromtimestamp(...)
.isoformat()` rendering of a millisecond timestamp is passed as an opaque
formatting function. -/

/-- `do_get_pipeline_endpoint_logs(endpoint, follow, tail)`
(lines 1689-1796), with the generator materialised as the list of lines it
yields.  The `follow` check is the first statement of the body. -/
def doGetPipelineEndpointLogs (follow : Bool) (tail : Option Nat)
    (serviceExists : Bool) (serviceName : Option String)
    (streams : List (List (Nat × String))) (fmt : Nat → String) :
    Except DeployErr (List String) :=
  if follow then
    .error (.notImplemented
      "Log following is not yet implemented for App Runner deployer")
  else if ¬ serviceExists then
    .error (.endpointNotFound "App Runner service not found")
  else if serviceName = none then
    .error (.deployerFailure "Service name not found in endpoint metadata")
  else
    let log_lines := streams.flatMap fun events =>
      events.map fun ev => "[" ++ fmt ev.1 ++ "] " ++ ev.2
    let log_lines := log_lines.mergeSort (fun a b => decide (a ≤ b))
    let log_lines :=
      match tail with
      | some t => if t > 0 then log_lines.drop (log_lines.length - t) else log_lines
      | none => log_lines
    .ok log_lines

/-! ## `_sanitize_secret_name` (lines 566-621)

The substitution regex replaces every character outside the class whose
members are the ranges `a-z`, `A-Z`, `0-9`, the literal underscore, and —
because the source pattern ends in dot, hyphen, slash, which the regex
engine parses as the two-character range U+002E–U+002F — the dot and the
forward slash.  A hyphen is therefore *not* preserved and is replaced like
any other disallowed character. -/

/-- Membership in the preserved character class of the substitution regex
(letters, digits, underscore, dot, forward slash; see the section comment
for why the hyphen is excluded). -/
def secretNameKeep (c : Char) : Bool :=
  ('a' ≤ c ∧ c ≤ 'z') ∨ ('A' ≤ c ∧ c ≤ 'Z') ∨ ('0' ≤ c ∧ c ≤ '9') ∨
    c = '_' ∨ c = '.' ∨ c = '/'

/-- Membership in the suffix-validation class `[a-zA-Z0-9_-]`. -/
def suffixAllowed (c : Char) : Bool :=
  ('a' ≤ c ∧ c ≤ 'z') ∨ ('A' ≤ c ∧ c ≤ 'Z') ∨ ('0' ≤ c ∧ c ≤ '9') ∨
    c = '_' ∨ c = '-'

/-- `re.sub(r"/+", "/", s)`: collapse every run of consecutive forward
slashes to a single one. -/
def collapseSlashes : List Char → List Char
  | [] => []
  | [c] => [c]
  | c :: c' :: rest =>
    if c = '/' ∧ c' = '/' then collapseSlashes (c' :: rest)
    else c :: collapseSlashes (c' :: rest)

/-- `s.rstrip("/")`. -/
def rstripSlashes (l : List Char) : List Char :=
  (l.reverse.dropWhile (fun c => c = '/')).reverse

/-- `s.strip("/")`. -/
def stripSlashes (l : List Char) : List Char :=
  rstripSlashes (l.dropWhile (fun c => c = '/'))

/-- Python slicing `s[:n]` for a possibly negative bound. -/
def pySliceTo (n : Int) (l : List Char) : List Char :=
  if 0 ≤ n then l.take n.toNat else l.take (l.length - n.natAbs)

/-- The successive reassignments of `sanitized` (lines 593-600): replace
every character outside the preserved class with an underscore, collapse
consecutive forward slashes, strip leading and trailing forward slashes. -/
def sanitizedStripped (name : String) : List Char :=
  stripSlashes (collapseSlashes
    (name.toList.map fun c => if secretNameKeep c then c else '_'))

/-- The truncation step (lines 608-613): fit the body within 512 characters
including the underscore and the suffix, re-stripping trailing slashes after
truncation. -/
def sanitizedBody (name random_suffix : String) : List Char :=
  let sanitized := sanitizedStripped name
  let max_base_length : Int := 512 - (random_suffix.length : Int) - 1
  if (sanitized.length : Int) > max_base_length then
    rstripSlashes (pySliceTo max_base_length sanitized)
  else
    sanitized

/-- `_sanitize_secret_name(name, random_suffix)` (lines 566-621). -/
def sanitizeSecretName (name random_suffix : String) : Except String String :=
  if ¬ (random_suffix.toList ≠ [] ∧ random_suffix.toList.all suffixAllowed) then
    .error ("Invalid random suffix: " ++ random_suffix)
  else if sanitizedStripped name = [] then
    .error ("Invalid secret name: " ++ name)
  else if sanitizedBody name random_suffix = [] then
    .error ("Invalid secret name: " ++ name)
  else
    .ok ((sanitizedBody name random_suffix ++ '_' :: random_suffix.toList).asString)

end AwsDeployer

namespace ServerRuntime

/-!
## The serving runtime context (`runtime.py`)

`get_outputs` returns `dict(state.outputs)`: a new top-level dictionary
holding the *same* per-step inner dictionary objects.  To state what
mutating the returned value does, Python reference semantics is made
explicit: inner dictionaries live in a heap addressed by allocation order,
and the `outputs` field of the context state maps each step name to the
address of its inner dictionary.
-/

abbrev Val := Nat

abbrev Addr := Nat

/-- The heap of inner (per-step) output dictionaries. -/
structure Heap where
  inner : Addr → (String → Option Val)
  nextAddr : Addr

/-- The fields of `_DeploymentState` involved in output capture. -/
structure DeploymentState where
  active : Bool
  outputs : String → Option Addr

/-- `runtime.start(...)`: a fresh state with `active = True` and an empty
`outputs` dictionary. -/
def start : DeploymentState :=
  ⟨true, fun _ => none⟩

/-- Pointwise update of a function-encoded dictionary. -/
def updFn {α : Type} (f : String → α) (k : String) (v : α) : String → α :=
  fun k' => if k' = k then v else f k'

/-- `runtime.record_step_outputs(step_name, outputs)` (lines 115-127):
`state.outputs.setdefault(step_name, {}).update(outputs)` — a no-op when
inactive or when `outputs` is empty; otherwise the step's inner dictionary
(allocated fresh when absent) is updated in place. -/
def recordStepOutputs (h : Heap) (s : DeploymentState) (step : String)
    (outs : List (String × Val)) : Heap × DeploymentState :=
  if ¬ s.active then (h, s)
  else if outs = [] then (h, s)
  else
    match s.outputs step with
    | some a =>
      let newInner := outs.foldl (fun m kv => updFn m kv.1 (some kv.2)) (h.inner a)
      (⟨updFn' h.inner a newInner, h.nextAddr⟩, s)
    | none =>
      let a := h.nextAddr
      let newInner := outs.foldl (fun m kv => updFn m kv.1 (some kv.2)) (fun _ => none)
      (⟨updFn' h.inner a newInner, h.nextAddr + 1⟩,
       ⟨s.active, updFn s.outputs step (some a)⟩)
where
  updFn' (f : Addr → (String → Option Val)) (a : Addr) (v : String → Option Val) :
      Addr → (String → Option Val) :=
    fun a' => if a' = a then v else f a'

/-- `runtime.get_outputs()` (lines 130-136): `dict(state.outputs)` — a new
top-level dictionary with the same step-name → inner-dictionary-object
entries.  In the heap model the returned object is a fresh copy of the
address map; the inner addresses are shared with the context state. -/
def getOutputsSnapshot (s : DeploymentState) : String → Option Addr :=
  s.outputs

/-- A mutation a caller can apply to the value returned by `get_outputs`:
rebinding or deleting a top-level entry mutates only the returned
dictionary object, while writing through a contained per-step dictionary
mutates the shared heap object. -/
inductive SnapMut
  | setTop (step : String) (a : Addr)
  | delTop (step : String)
  | setNested (step : String) (out : String) (v : Val)
  deriving Repr, DecidableEq

/-- Whether a mutation touches only the returned top-level dictionary. -/
def SnapMut.topLevel : SnapMut → Bool
  | .setTop _ _ => true
  | .delTop _ => true
  | .setNested _ _ _ => false

/-- Apply one mutation to the snapshot object and the heap. -/
def applyMut (p : (String → Option Addr) × Heap) (m : SnapMut) :
    (String → Option Addr) × Heap :=
  match m with
  | .setTop step a => (updFn p.1 step (some a), p.2)
  | .delTop step => (updFn p.1 step none, p.2)
  | .setNested step out v =>
    match p.1 step with
    | some a =>
      (p.1,
       ⟨fun a' => if a' = a then updFn (p.2.inner a) out (some v) else p.2.inner a',
        p.2.nextAddr⟩)
    | none => p

/-- Apply a sequence of mutations. -/
def applyMuts (p : (String → Option Addr) × Heap) (ms : List SnapMut) :
    (String → Option Addr) × Heap :=
  ms.foldl applyMut p

/-- The outputs a `get_outputs` call observes: each step's address resolved
through the heap to the contents of its inner dictionary. -/
def resolve (h : Heap) (outputs : String → Option Addr) :
    String → Option (String → Option Val) :=
  fun step => (outputs step).map h.inner

/-- The empty heap the counterexample scenario starts from. -/
def emptyHeap : Heap :=
  ⟨fun _ => fun _ => none, 0⟩

/-- Scenario: a fresh request context in which one step recorded one
output (`"step" → {"o": 1}`). -/
def scenarioAfterRecord : Heap × DeploymentState :=
  recordStepOutputs emptyHeap start "step" [("o", 1)]

end ServerRuntime

namespace AwsDeployer

/-! # Theorems -/

/-! ## C1: replacement decision -/

/-- C1: the replacement decision returns `true` exactly when the
public/private network visibility differs, the presence of a private-network
(VPC) attachment differs, or the encryption-key reference differs; for every
other difference (in particular the container image, which the decision does
not even consult) it returns `false`, and the provision branch then takes
the in-place update path. -/
theorem requiresServiceReplacement_iff (svc : AppRunnerService)
    (settings : AWSDeployerSettings) :
    (requiresServiceReplacement svc settings = true ↔
      (svc.isPubliclyAccessible ≠ some settings.is_publicly_accessible ∨
       pyTruthy svc.vpcConnectorArn ≠ settings.ingress_vpc_configuration.isSome ∨
       svc.kmsKey ≠ settings.encryption_kms_key)) ∧
    (provisionTakesReplacementPath (some svc) settings = false ↔
      ¬ (svc.isPubliclyAccessible ≠ some settings.is_publicly_accessible ∨
         pyTruthy svc.vpcConnectorArn ≠ settings.ingress_vpc_configuration.isSome ∨
         svc.kmsKey ≠ settings.encryption_kms_key)) := by
  have h : requiresServiceReplacement svc settings = true ↔
      (svc.isPubliclyAccessible ≠ some settings.is_publicly_accessible ∨
       pyTruthy svc.vpcConnectorArn ≠ settings.ingress_vpc_configuration.isSome ∨
       svc.kmsKey ≠ settings.encryption_kms_key) := by
    unfold requiresServiceReplacement
    split
    · simp_all
    · split
      · simp_all
      · split <;> simp_all
  refine ⟨h, ?_⟩
  rw [show provisionTakesReplacementPath (some svc) settings =
    requiresServiceReplacement svc settings from rfl]
  rw [← h]
  simp

/-! ## C3: scaling normalization -/

/-- C3 counterexample: the claim says all three returned values are clamped
to the platform maxima, but a requested minimum of 2000 replicas is returned
as 2000, above the platform ceiling of 1000. -/
theorem convertScaling_min_not_clamped :
    (convertScalingSettingsToAwsFormat (some 2000) none none).1 = 2000 ∧
      AWS_APP_RUNNER_MAX_SIZE < 2000 := by
  constructor <;> decide

/-- C3 amended: the minimum defaults to 1 and is floored at 1 (but is not
clamped to a platform maximum); `maxReplicas = 0` maps to the platform
ceiling 1000; the maximum and the concurrency are clamped to the platform
maxima; the maximum defaults to 25 and the concurrency to 100. -/
theorem convertScaling_spec (minR maxR conc : Option Nat) :
    convertScalingSettingsToAwsFormat minR maxR conc =
      (match minR with
       | none => 1
       | some m => max 1 m,
       match maxR with
       | none => 25
       | some m => if m = 0 then 1000 else min m 1000,
       match conc with
       | none => 100
       | some c => min c 1000) := by
  cases minR <;> cases maxR <;> cases conc <;> rfl

/-! ## C4: operational-state URL -/

/-- C4 counterexample: a remote service reported as `RUNNING` but carrying
no `ServiceUrl` key yields a state whose status is `Running` while its url
is unset, refuting "url is non-empty if and only if status is Running". -/
theorem getServiceOperationalState_url_counterexample :
    (getServiceOperationalState ⟨some "RUNNING", none⟩).status =
        PipelineEndpointStatus.running ∧
      urlNonempty (getServiceOperationalState ⟨some "RUNNING", none⟩).url = false := by
  decide

/-- C4 amended: the url is populated only in the `Running` branch — in every
other status branch it is left unset — and when the status is `Running` it
equals the remote service's URL (absent when the remote reports none),
prefixed with the required `https://` scheme when it is non-empty and does
not already carry it. -/
theorem getServiceOperationalState_url_spec (service : ServiceStatusView) :
    ((getServiceOperationalState service).status ≠ PipelineEndpointStatus.running →
      (getServiceOperationalState service).url = none) ∧
    ((getServiceOperationalState service).status = PipelineEndpointStatus.running →
      (getServiceOperationalState service).url =
        match service.serviceUrl with
        | none => none
        | some u =>
          if u ≠ "" ∧ ¬ pyStartsWith u "https://" then some ("https://" ++ u)
          else some u) := by
  obtain ⟨st, u⟩ := service
  dsimp only [getServiceOperationalState]
  constructor <;> intro h <;> revert h <;> split_ifs <;> cases u <;> simp_all

/-- C4 witness: a running service with a schemeless URL gets the scheme
prefixed, through the amended theorem. -/
theorem getServiceOperationalState_url_witness :
    (getServiceOperationalState ⟨some "running", some "example.com"⟩).status =
        PipelineEndpointStatus.running ∧
      (getServiceOperationalState ⟨some "running", some "example.com"⟩).url =
        some "https://example.com" := by
  refine ⟨by decide, ?_⟩
  have h := (getServiceOperationalState_url_spec ⟨some "running", some "example.com"⟩).2
    (by decide)
  simpa using h

/-! ## C5: deprovision cleans up auxiliary resources only after Absent -/

/-- C5: when deprovisioning returns normally, auxiliary cleanup actions were
issued only if polling confirmed the service `Absent`; if polling ended in
any other status the last observed state is returned and no auxiliary
resource is deleted; once `Absent` is confirmed the secret and then the
scaling configuration are deleted. -/
theorem doDeprovision_cleanup_spec (serviceExists : Bool) (serviceArn : Option String)
    (deleteOk : Bool) (polled : OperationalState) (ret : Option OperationalState)
    (actions : List CleanupAction)
    (h : doDeprovisionPipelineEndpoint serviceExists serviceArn deleteOk polled =
      .ok (ret, actions)) :
    (actions ≠ [] → polled.status = PipelineEndpointStatus.absent) ∧
    (polled.status ≠ PipelineEndpointStatus.absent →
      ret = some polled ∧ actions = []) ∧
    (polled.status = PipelineEndpointStatus.absent →
      ret = none ∧
        actions = [CleanupAction.deleteSecret, CleanupAction.deleteAutoScalingConfig]) := by
  unfold doDeprovisionPipelineEndpoint at h
  split at h
  · cases h
  · split at h
    · cases h
    · split at h
      · cases h
      · split at h
        · cases h
          simp_all
        · cases h
          simp_all

/-- C5 witness: a deprovision run in which polling confirms `Absent`
deletes the secret and the scaling configuration, through the theorem. -/
theorem doDeprovision_cleanup_witness :
    doDeprovisionPipelineEndpoint true (some "arn:aws:apprunner:svc") true
        ⟨PipelineEndpointStatus.absent, none⟩ =
      .ok (none, [CleanupAction.deleteSecret, CleanupAction.deleteAutoScalingConfig]) ∧
    ([CleanupAction.deleteSecret, CleanupAction.deleteAutoScalingConfig] ≠
        ([] : List CleanupAction) →
      (⟨PipelineEndpointStatus.absent, none⟩ : OperationalState).status =
        PipelineEndpointStatus.absent) := by
  refine ⟨rfl, ?_⟩
  exact (doDeprovision_cleanup_spec true (some "arn:aws:apprunner:svc") true
    ⟨PipelineEndpointStatus.absent, none⟩ none
    [CleanupAction.deleteSecret, CleanupAction.deleteAutoScalingConfig] rfl).1

/-! ## C7: auto-scaling configuration idempotence -/

/-- C7: when the previously recorded auto-scaling configuration ARN still
resolves remotely and its (maxConcurrency, maxSize, minSize) already equal
the desired values, the function returns the existing ARN unchanged and the
trace of remote writes is empty — no create call is issued. -/
theorem autoScalingConfig_idempotent (arn : String) (cfg : ScalingConfig)
    (createResult : Except String String) (min_size max_size max_concurrency : Nat)
    (h1 : cfg.maxConcurrency = max_concurrency) (h2 : cfg.maxSize = max_size)
    (h3 : cfg.minSize = min_size) :
    createOrUpdateAutoScalingConfig (some arn) (.found cfg) createResult
        min_size max_size max_concurrency = .ok (arn, []) := by
  unfold createOrUpdateAutoScalingConfig
  simp [h1, h2, h3]

/-- C7 witness: a second `ensure` call with the identical values against the
resolvable recorded configuration returns it with zero remote writes. -/
theorem autoScalingConfig_idempotent_witness :
    createOrUpdateAutoScalingConfig (some "arn:config") (.found ⟨100, 25, 1⟩)
        (.ok "arn:fresh") 1 25 100 = .ok ("arn:config", []) :=
  autoScalingConfig_idempotent "arn:config" ⟨100, 25, 1⟩ (.ok "arn:fresh") 1 25 100
    rfl rfl rfl

/-! ## C8: log following fails fast -/

/-- C8: requesting `follow` (live-tailing) makes the call fail with the
"not yet implemented" error before anything else is looked at — for every
tail value, remote service state and log content, no log sequence is
returned. -/
theorem getLogs_follow_fails (tail : Option Nat) (serviceExists : Bool)
    (serviceName : Option String) (streams : List (List (Nat × String)))
    (fmt : Nat → String) :
    doGetPipelineEndpointLogs true tail serviceExists serviceName streams fmt =
      .error (.notImplemented
        "Log following is not yet implemented for App Runner deployer") := by
  rfl

/-! ## C6: secret-storage failure degrades to plaintext injection -/

/-- A key bound in the right operand of a dictionary merge keeps its value
in the merged dictionary. -/
theorem lookup_append_of_some {l₁ l₂ : List (String × String)} {k : String} {v : String}
    (h : List.lookup k l₁ = some v) : List.lookup k (l₁ ++ l₂) = some v := by
  induction l₁ with
  | nil => simp [List.lookup] at h
  | cons x xs ih =>
    obtain ⟨k', v'⟩ := x
    rw [List.cons_append]
    cases hkx : k == k' <;> simp [List.lookup, hkx] at h ⊢
    · exact ih h
    · exact h

/-- `dictGet` of a merged dictionary prefers the right operand. -/
theorem dictGet_append_right {a b : List (String × String)} {k v : String}
    (h : dictGet b k = some v) : dictGet (a ++ b) k = some v := by
  unfold dictGet at h ⊢
  rw [List.reverse_append]
  exact lookup_append_of_some h

/-- C6: with non-empty sensitive variables and the secrets manager enabled,
a failure of the secret create-or-update call makes the function emit a
warning, record no secret reference, and inject every sensitive variable as
a plaintext environment variable — and the call itself still returns
normally (the embedding is a total function; the Python `except Exception`
swallows the secret-storage error). -/
theorem prepareEnv_fallback_spec (settingsEnv environment secrets : List (String × String))
    (err : String) (existingArn : Option String) (hne : secrets ≠ []) :
    (prepareEnvironmentVariables settingsEnv environment secrets true
        (.error err) existingArn).warned = true ∧
    (prepareEnvironmentVariables settingsEnv environment secrets true
        (.error err) existingArn).active_secret_arn = none ∧
    (prepareEnvironmentVariables settingsEnv environment secrets true
        (.error err) existingArn).secret_refs = [] ∧
    ∀ k v, dictGet secrets k = some v →
      dictGet (prepareEnvironmentVariables settingsEnv environment secrets true
        (.error err) existingArn).env_vars k = some v := by
  have hprep : prepareEnvironmentVariables settingsEnv environment secrets true
      (.error err) existingArn =
      ⟨(settingsEnv ++ environment) ++ secrets, [], none, true,
        match existingArn with
        | some e => [e]
        | none => []⟩ := by
    unfold prepareEnvironmentVariables
    simp [hne]
  rw [hprep]
  refine ⟨rfl, rfl, rfl, ?_⟩
  intro k v h
  exact dictGet_append_right h

/-- C6 witness: one sensitive variable, failing secret storage — the value
comes back as a plaintext environment variable with a warning. -/
theorem prepareEnv_fallback_witness :
    ([("PASSWORD", "hunter2")] : List (String × String)) ≠ [] ∧
    (prepareEnvironmentVariables [] [] [("PASSWORD", "hunter2")] true
        (.error "boom") none).warned = true ∧
    (prepareEnvironmentVariables [] [] [("PASSWORD", "hunter2")] true
        (.error "boom") none).active_secret_arn = none ∧
    (prepareEnvironmentVariables [] [] [("PASSWORD", "hunter2")] true
        (.error "boom") none).secret_refs = [] ∧
    dictGet (prepareEnvironmentVariables [] [] [("PASSWORD", "hunter2")] true
        (.error "boom") none).env_vars "PASSWORD" = some "hunter2" := by
  have h := prepareEnv_fallback_spec [] [] [("PASSWORD", "hunter2")] "boom" none
    (by decide)
  exact ⟨by decide, h.1, h.2.1, h.2.2.1, h.2.2.2 "PASSWORD" "hunter2" rfl⟩

/-! ## C10: the sanitized secret-name body never contains a hyphen -/

/-- A character in the preserved class is not a hyphen (the class built by
the source pattern contains the dot–slash range, not the literal hyphen). -/
theorem secretNameKeep_ne_hyphen {c : Char} (h : secretNameKeep c = true) :
    c ≠ '-' := by
  rintro rfl
  exact absurd h (by decide)

/-- Every character of the substitution step's output is a non-hyphen:
preserved characters are not hyphens, and replaced ones are underscores. -/
theorem mem_substituted_ne_hyphen {name : String} {c : Char}
    (h : c ∈ name.toList.map fun c => if secretNameKeep c then c else '_') :
    c ≠ '-' := by
  obtain ⟨c', _, rfl⟩ := List.mem_map.mp h
  by_cases hk : secretNameKeep c' = true
  · rw [if_pos hk]
    exact secretNameKeep_ne_hyphen hk
  · rw [if_neg hk]
    decide

/-- Slash collapsing only removes characters. -/
theorem mem_collapseSlashes {l : List Char} {c : Char}
    (h : c ∈ collapseSlashes l) : c ∈ l := by
  induction l with
  | nil => simp [collapseSlashes] at h
  | cons a l ih =>
    cases l with
    | nil => simpa [collapseSlashes] using h
    | cons b l' =>
      rw [collapseSlashes] at h
      split at h
      · exact List.mem_cons_of_mem _ (ih h)
      · rcases List.mem_cons.mp h with rfl | h'
        · exact List.mem_cons_self _ _
        · exact List.mem_cons_of_mem _ (ih h')

/-- `dropWhile` only removes characters. -/
theorem mem_dropWhile {p : Char → Bool} {l : List Char} {c : Char}
    (h : c ∈ l.dropWhile p) : c ∈ l := by
  induction l with
  | nil => simp at h
  | cons a l ih =>
    rw [List.dropWhile_cons] at h
    split at h
    · exact List.mem_cons_of_mem _ (ih h)
    · exact h

/-- Right-stripping slashes only removes characters. -/
theorem mem_rstripSlashes {l : List Char} {c : Char}
    (h : c ∈ rstripSlashes l) : c ∈ l := by
  unfold rstripSlashes at h
  rw [List.mem_reverse] at h
  have := mem_dropWhile h
  simpa using this

/-- Stripping slashes only removes characters. -/
theorem mem_stripSlashes {l : List Char} {c : Char}
    (h : c ∈ stripSlashes l) : c ∈ l := by
  unfold stripSlashes at h
  exact mem_dropWhile (mem_rstripSlashes h)

/-- Python slicing only removes characters. -/
theorem mem_pySliceTo {n : Int} {l : List Char} {c : Char}
    (h : c ∈ pySliceTo n l) : c ∈ l := by
  unfold pySliceTo at h
  split at h <;> exact List.take_subset _ _ h

/-- Every character of the truncated body already occurs in the stripped
body. -/
theorem mem_sanitizedBody {name suffix : String} {c : Char}
    (h : c ∈ sanitizedBody name suffix) : c ∈ sanitizedStripped name := by
  dsimp only [sanitizedBody] at h
  split at h
  · exact mem_pySliceTo (mem_rstripSlashes h)
  · exact h

/-- C10: whenever sanitization succeeds, the result is the sanitized body
followed by an underscore and the random suffix, and the body contains no
hyphen — every hyphen of the raw name was replaced by an underscore, so a
hyphen can reach the final name only through the suffix. -/
theorem sanitizeSecretName_no_hyphen (name suffix r : String)
    (h : sanitizeSecretName name suffix = .ok r) :
    r = (sanitizedBody name suffix ++ '_' :: suffix.toList).asString ∧
      ∀ c ∈ sanitizedBody name suffix, c ≠ '-' := by
  refine ⟨?_, ?_⟩
  · unfold sanitizeSecretName at h
    split at h
    · cases h
    · split at h
      · cases h
      · split at h
        · cases h
        · injection h with h
          exact h.symm
  · intro c hc
    exact mem_substituted_ne_hyphen
      (mem_collapseSlashes (mem_stripSlashes (mem_sanitizedBody hc)))

/-- C10 witness: a raw name with a hyphen comes back with the hyphen turned
into an underscore; the body of the result contains no hyphen. -/
theorem sanitizeSecretName_no_hyphen_witness :
    sanitizeSecretName "my-secret" "abc12345" = Except.ok "my_secret_abc12345" ∧
    "my_secret_abc12345" =
      (sanitizedBody "my-secret" "abc12345" ++ '_' :: "abc12345".toList).asString ∧
    '-' ∉ sanitizedBody "my-secret" "abc12345" := by
  have h := sanitizeSecretName_no_hyphen "my-secret" "abc12345" "my_secret_abc12345" rfl
  exact ⟨rfl, h.1, fun hc => h.2 '-' hc rfl⟩

end AwsDeployer

namespace ServerRuntime

/-! ## C9: `get_outputs` returns a shallow copy -/

/-- C9 counterexample: after one step records `{"o": 1}`, mutating the
per-step nested map of the value returned by `get_outputs` (setting `"o"`
to 2 through the shared inner dictionary) changes what a subsequent
`get_outputs` observes — the internal output state is not isolated from
nested mutations of the snapshot. -/
theorem getOutputs_shallow_counterexample :
    ((resolve scenarioAfterRecord.1 scenarioAfterRecord.2.outputs "step").map
        fun m => m "o") = some (some 1) ∧
    ((resolve
        (applyMuts (getOutputsSnapshot scenarioAfterRecord.2, scenarioAfterRecord.1)
          [SnapMut.setNested "step" "o" 2]).2
        scenarioAfterRecord.2.outputs "step").map
        fun m => m "o") = some (some 2) := by
  constructor <;> rfl

/-- Top-level-only mutations never touch the heap of shared inner
dictionaries. -/
theorem applyMuts_topLevel_heap (ms : List SnapMut) :
    ∀ p : (String → Option Addr) × Heap, (∀ m ∈ ms, m.topLevel = true) →
      (applyMuts p ms).2 = p.2 := by
  induction ms with
  | nil =>
    intro p _
    rfl
  | cons m ms ih =>
    intro p h
    have hm := h m (List.mem_cons_self _ _)
    have hrest := fun m' hm' => h m' (List.mem_cons_of_mem _ hm')
    unfold applyMuts at ih ⊢
    rw [List.foldl_cons, ih (applyMut p m) hrest]
    cases m with
    | setTop s a => rfl
    | delTop s => rfl
    | setNested s o v => exact absurd hm (by simp [SnapMut.topLevel])

/-- C9 amended: `get_outputs` returns a shallow snapshot — rebinding or
deleting entries of the returned top-level mapping never changes the
context's internal output state, and a subsequent `get_outputs` observes
the same outputs as before; mutations through the shared per-step nested
maps, however, are visible internally (see the counterexample). -/
theorem getOutputs_topLevel_mutations_safe (s : DeploymentState) (h : Heap)
    (ms : List SnapMut) (hms : ∀ m ∈ ms, m.topLevel = true) :
    resolve (applyMuts (getOutputsSnapshot s, h) ms).2 s.outputs =
      resolve h s.outputs := by
  rw [applyMuts_topLevel_heap ms _ hms]

/-- C9 witness: deleting the step entry from the returned snapshot leaves
the internal outputs untouched. -/
theorem getOutputs_topLevel_mutations_witness :
    ([SnapMut.delTop "step"].all SnapMut.topLevel) = true ∧
    resolve (applyMuts
        (getOutputsSnapshot scenarioAfterRecord.2, scenarioAfterRecord.1)
        [SnapMut.delTop "step"]).2 scenarioAfterRecord.2.outputs =
      resolve scenarioAfterRecord.1 scenarioAfterRecord.2.outputs := by
  refine ⟨by decide, ?_⟩
  exact getOutputs_topLevel_mutations_safe scenarioAfterRecord.2 scenarioAfterRecord.1
    [SnapMut.delTop "step"] (by decide)

end ServerRuntime

namespace AwsDeployer

/-! ## C2: tier selection -/

/-- Folding the selection step over rows that all fail the requirements
leaves the accumulator unchanged. -/
theorem selFold_skip (rc rm : Option ℚ) (l : List AwsTier)
    (acc : Option (ℚ × String × String))
    (h : ∀ t ∈ l, tierOk rc rm t = false) :
    l.foldl (selStep rc rm) acc = acc := by
  induction l generalizing acc with
  | nil => rfl
  | cons t ts ih =>
    have ht := h t (List.mem_cons_self _ _)
    rw [List.foldl_cons, show selStep rc rm acc t = acc by simp [selStep, ht]]
    exact ih acc fun u hu => h u (List.mem_cons_of_mem _ hu)

/-- If the fold comes back empty, the accumulator was empty and no row
satisfied the requirements. -/
theorem selFold_eq_none {rc rm : Option ℚ} {l : List AwsTier}
    {acc : Option (ℚ × String × String)}
    (h : l.foldl (selStep rc rm) acc = none) :
    acc = none ∧ ∀ t ∈ l, tierOk rc rm t = false := by
  induction l generalizing acc with
  | nil => exact ⟨h, by simp⟩
  | cons t ts ih =>
    rw [List.foldl_cons] at h
    obtain ⟨h1, h2⟩ := ih h
    by_cases hok : tierOk rc rm t = true
    · exfalso
      rw [selStep.eq_def, if_pos hok] at h1
      cases hacc : acc with
      | none => rw [hacc] at h1; cases h1
      | some x =>
        obtain ⟨bs, b⟩ := x
        rw [hacc] at h1
        dsimp at h1
        split at h1 <;> cases h1
    · have hacc : acc = none := by
        rw [selStep.eq_def, if_neg (by simp [hok])] at h1
        exact h1
      refine ⟨hacc, fun u hu => ?_⟩
      rcases List.mem_cons.mp hu with rfl | hu
      · simpa using hok
      · exact h2 u hu

/-- The score of the fold's result is a lower bound on the accumulator's
score and on the score of every satisfying row. -/
theorem selFold_min {rc rm : Option ℚ} :
    ∀ (l : List AwsTier) (acc : Option (ℚ × String × String)) (s : ℚ)
      (c : String × String), l.foldl (selStep rc rm) acc = some (s, c) →
      (∀ bs b, acc = some (bs, b) → s ≤ bs) ∧
        ∀ t ∈ l, tierOk rc rm t = true → s ≤ tierScore rc rm t := by
  intro l
  induction l with
  | nil =>
    intro acc s c h
    simp only [List.foldl_nil] at h
    refine ⟨fun bs b hacc => ?_, by simp⟩
    rw [h] at hacc
    cases hacc
    exact le_refl _
  | cons t ts ih =>
    intro acc s c h
    rw [List.foldl_cons] at h
    obtain ⟨ha, hts⟩ := ih (selStep rc rm acc t) s c h
    constructor
    · rintro bs b rfl
      by_cases hok : tierOk rc rm t = true
      · by_cases hlt : tierScore rc rm t < bs
        · have hs := ha (tierScore rc rm t) (t.cpuStr, t.memStr)
            (by simp [selStep, hok, hlt])
          exact hs.trans hlt.le
        · exact ha bs b (by simp [selStep, hok, hlt])
      · exact ha bs b (by simp [selStep, hok])
    · intro u hu huok
      rcases List.mem_cons.mp hu with rfl | hu
      · cases hacc : acc with
        | none =>
          exact ha (tierScore rc rm u) (u.cpuStr, u.memStr)
            (by simp [selStep, huok, hacc])
        | some x =>
          obtain ⟨bs, b⟩ := x
          by_cases hlt : tierScore rc rm u < bs
          · exact ha (tierScore rc rm u) (u.cpuStr, u.memStr)
              (by simp [selStep, huok, hacc, hlt])
          · have hsbs : s ≤ bs := ha bs b (by simp [selStep, huok, hacc, hlt])
            exact hsbs.trans (not_lt.mp hlt)
      · exact hts u hu huok

/-- The fold's result is either the untouched accumulator or the first
satisfying row achieving the final (strictly best so far) score. -/
theorem selFold_first {rc rm : Option ℚ} :
    ∀ (l : List AwsTier) (acc : Option (ℚ × String × String)) (s : ℚ)
      (c : String × String), l.foldl (selStep rc rm) acc = some (s, c) →
      acc = some (s, c) ∨
        ∃ l₁ t l₂, l = l₁ ++ t :: l₂ ∧ tierOk rc rm t = true ∧
          tierScore rc rm t = s ∧ (t.cpuStr, t.memStr) = c ∧
          (∀ bs b, acc = some (bs, b) → s < bs) ∧
          ∀ u ∈ l₁, tierOk rc rm u = true → s < tierScore rc rm u := by
  intro l
  induction l with
  | nil =>
    intro acc s c h
    simp only [List.foldl_nil] at h
    exact Or.inl h
  | cons t ts ih =>
    intro acc s c h
    rw [List.foldl_cons] at h
    rcases ih (selStep rc rm acc t) s c h with hleft | hright
    · by_cases hok : tierOk rc rm t = true
      · cases hacc : acc with
        | none =>
          rw [selStep.eq_def, if_pos hok, hacc] at hleft
          injection hleft with hleft
          refine Or.inr ⟨[], t, ts, rfl, hok, ?_, ?_, by simp [hacc], by simp⟩
          · exact congrArg Prod.fst hleft
          · have := congrArg Prod.snd hleft
            simpa using this
        | some x =>
          obtain ⟨bs, b⟩ := x
          by_cases hlt : tierScore rc rm t < bs
          · rw [selStep.eq_def, if_pos hok, hacc] at hleft
            dsimp at hleft
            rw [if_pos hlt] at hleft
            injection hleft with hleft
            have h1 := congrArg Prod.fst hleft
            have h2 := congrArg Prod.snd hleft
            dsimp at h1 h2
            refine Or.inr ⟨[], t, ts, rfl, hok, h1, h2, ?_, by simp⟩
            rintro bs' b' hb
            injection hb with hb2
            have hbs := congrArg Prod.fst hb2
            dsimp at hbs
            rw [← h1, ← hbs]
            exact hlt
          · rw [selStep.eq_def, if_pos hok, hacc] at hleft
            dsimp at hleft
            rw [if_neg hlt] at hleft
            exact Or.inl hleft
      · rw [selStep.eq_def, if_neg (by simp [hok])] at hleft
        exact Or.inl hleft
    · obtain ⟨l₁, t', l₂, hts, hok', hscore, hlab, hacc', hl₁⟩ := hright
      refine Or.inr ⟨t :: l₁, t', l₂, by rw [List.cons_append, hts], hok', hscore,
        hlab, ?_, ?_⟩
      · rintro bs b rfl
        by_cases hok : tierOk rc rm t = true
        · by_cases hlt : tierScore rc rm t < bs
          · have hst := hacc' (tierScore rc rm t) (t.cpuStr, t.memStr)
              (by simp [selStep, hok, hlt])
            exact hst.trans hlt
          · exact hacc' bs b (by simp [selStep, hok, hlt])
        · exact hacc' bs b (by simp [selStep, hok])
      · intro u hu huok
        rcases List.mem_cons.mp hu with rfl | hu
        · cases hacc : acc with
          | none =>
            exact hacc' (tierScore rc rm u) (u.cpuStr, u.memStr)
              (by simp [selStep, huok, hacc])
          | some x =>
            obtain ⟨bs, b⟩ := x
            by_cases hlt : tierScore rc rm u < bs
            · exact hacc' (tierScore rc rm u) (u.cpuStr, u.memStr)
                (by simp [selStep, huok, hacc, hlt])
            · have hsbs : s < bs := hacc' bs b (by simp [selStep, huok, hacc, hlt])
              exact hsbs.trans_le (not_lt.mp hlt)
        · exact hl₁ u hu huok

/-- C2: tier selection returns the fixed default tier when both requests
are absent; when some row of the fixed table satisfies both requests, the
result is a satisfying row (never one below the requested CPU or memory)
that minimizes `10 * cpuOverage + memOverage` over all satisfying rows, and
among those it is the earliest in the table (every satisfying row strictly
before it has a strictly larger score); when no row satisfies both, the
platform's maximum tier ("4 vCPU", "12 GB") is returned. -/
theorem selectAwsCpuMemoryCombination_spec (rc rm : Option ℚ) :
    (rc = none → rm = none →
      selectAwsCpuMemoryCombination rc rm = (DEFAULT_CPU, DEFAULT_MEMORY)) ∧
    ((∀ t ∈ valid_combinations, tierOk rc rm t = false) →
      selectAwsCpuMemoryCombination rc rm = ("4 vCPU", "12 GB")) ∧
    (∀ t₀ ∈ valid_combinations, tierOk rc rm t₀ = true →
      ∃ l₁ t l₂, valid_combinations = l₁ ++ t :: l₂ ∧ tierOk rc rm t = true ∧
        selectAwsCpuMemoryCombination rc rm = (t.cpuStr, t.memStr) ∧
        (∀ u ∈ valid_combinations, tierOk rc rm u = true →
          tierScore rc rm t ≤ tierScore rc rm u) ∧
        ∀ u ∈ l₁, tierOk rc rm u = true → tierScore rc rm t < tierScore rc rm u) := by
  refine ⟨?_, ?_, ?_⟩
  · rintro rfl rfl
    rfl
  · intro hall
    by_cases hnn : rc = none ∧ rm = none
    · exfalso
      obtain ⟨rfl, rfl⟩ := hnn
      have hmem : (⟨1/4, "0.25 vCPU", 1/2, "0.5 GB"⟩ : AwsTier) ∈ valid_combinations := by
        simp [valid_combinations]
      have := hall _ hmem
      simp [tierOk] at this
    · rw [selectAwsCpuMemoryCombination, if_neg hnn,
        selFold_skip rc rm valid_combinations none hall]
  · intro t₀ ht₀ hok₀
    by_cases hnn : rc = none ∧ rm = none
    · obtain ⟨rfl, rfl⟩ := hnn
      refine ⟨[], ⟨1/4, "0.25 vCPU", 1/2, "0.5 GB"⟩,
        [⟨1/4, "0.25 vCPU", 1, "1 GB"⟩,
         ⟨1/2, "0.5 vCPU", 1, "1 GB"⟩,
         ⟨1, "1 vCPU", 2, "2 GB"⟩,
         ⟨1, "1 vCPU", 3, "3 GB"⟩,
         ⟨1, "1 vCPU", 4, "4 GB"⟩,
         ⟨2, "2 vCPU", 4, "4 GB"⟩,
         ⟨2, "2 vCPU", 6, "6 GB"⟩,
         ⟨4, "4 vCPU", 8, "8 GB"⟩,
         ⟨4, "4 vCPU", 10, "10 GB"⟩,
         ⟨4, "4 vCPU", 12, "12 GB"⟩], rfl, rfl, rfl, ?_, by simp⟩
      intro u _ _
      simp [tierScore]
    · cases hfold : valid_combinations.foldl (selStep rc rm) none with
      | none =>
        exfalso
        have := (selFold_eq_none hfold).2 t₀ ht₀
        rw [hok₀] at this
        cases this
      | some x =>
        obtain ⟨s, c⟩ := x
        have hsel : selectAwsCpuMemoryCombination rc rm = c := by
          rw [selectAwsCpuMemoryCombination, if_neg hnn, hfold]
        rcases selFold_first valid_combinations none s c hfold with hleft | hright
        · cases hleft
        · obtain ⟨l₁, t, l₂, hsplit, hok, hscore, hlab, _, hl₁⟩ := hright
          have hmin := (selFold_min valid_combinations none s c hfold).2
          refine ⟨l₁, t, l₂, hsplit, hok, by rw [hsel, ← hlab], ?_, ?_⟩
          · intro u hu huok
            rw [hscore]
            exact hmin u hu huok
          · intro u hu huok
            rw [hscore]
            exact hl₁ u hu huok

/-- C2 witness: both requests absent yield the default tier (through the
theorem); a request of (0.3 vCPU, 0.4 GB) selects the (0.5 vCPU, 1 GB)
tier — the smallest satisfying one under the 10-to-1 weighting; an
unsatisfiable CPU request falls back to the maximum tier (through the
theorem). -/
theorem selectAwsCpuMemoryCombination_witness :
    selectAwsCpuMemoryCombination none none = (DEFAULT_CPU, DEFAULT_MEMORY) ∧
    selectAwsCpuMemoryCombination (some (3/10)) (some (2/5)) = ("0.5 vCPU", "1 GB") ∧
    selectAwsCpuMemoryCombination (some 100) none = ("4 vCPU", "12 GB") := by
  refine ⟨(selectAwsCpuMemoryCombination_spec none none).1 rfl rfl, ?_, ?_⟩
  · simp [selectAwsCpuMemoryCombination, valid_combinations, selStep, tierOk, tierScore]
    norm_num
  · refine (selectAwsCpuMemoryCombination_spec (some 100) none).2.1 ?_
    simp [valid_combinations, tierOk]
    norm_num

end AwsDeployer
